import Mathlib

/-!
# Streaming-event decoder of the WebLens demo frontend — verification

A shallow embedding of the four server-sent-event read loops of the
frontend (`handleSubmit` in the ChatBot of `App.tsx`, `fetchSiteItems` in
`SiteInfo.tsx`, `fetchIdeas` in `Ideator.tsx`, `fetchDetails` in the
IdeaDetails components of `App.tsx`), together with theorems about
chunk handling, frame parsing, deduplication and error propagation.

Text is modelled as `List Char` (the code manipulates JavaScript strings
only through `split`, `startsWith`, `slice` and concatenation, all of
which are plain list operations).  `JSON.parse` is an external library
call; it is modelled as an oracle `parse : Str → Option Json`, `none`
meaning the exception path (invalid JSON).  A concrete instance
`demoParse`, defined on exactly the payloads of the concrete scenarios,
is used for closed evaluations.
-/

/-- Text, as a list of characters. -/
abbrev Str := List Char

/-- The result of a successful `JSON.parse`: a JSON value.  Numbers do not
occur in any payload the frontend inspects and are omitted. -/
inductive Json : Type where
  | jstr  (s : String)            : Json
  | jbool (b : Bool)              : Json
  | jnull                         : Json
  | jarr  (elems : List Json)     : Json
  | jobj  (fields : List (String × Json)) : Json

/-- Property access `data.k` on a parsed JSON value: `none` models the
JavaScript value `undefined` (absent field, or access on a non-object).
For duplicate keys `JSON.parse` keeps the last occurrence, hence the
left fold. -/
def jlookup (j : Json) (k : String) : Option Json :=
  match j with
  | .jobj fields => fields.foldl (fun acc p => if p.1 = k then some p.2 else acc) none
  | _ => none

/-- JavaScript strict equality `===` between two values each freshly
produced by a distinct `JSON.parse` call (as every comparison in the
source is): value equality on primitives, `undefined === undefined` is
`true`, and objects/arrays compare by reference — two values originating
from distinct parses are never identical, so the comparison is `false`. -/
def jsEq : Option Json → Option Json → Bool
  | none, none => true
  | some .jnull, some .jnull => true
  | some (.jstr a), some (.jstr b) => a = b
  | some (.jbool a), some (.jbool b) => a = b
  | _, _ => false

/-- JavaScript string coercion `String(v)`, as used by `+=` when a payload
field is appended to a text buffer. -/
def jsToStr : Option Json → Str
  | some (.jstr s) => s.data
  | some (.jbool b) => if b then "true".data else "false".data
  | some .jnull => "null".data
  | some (.jobj _) => "[object Object]".data
  | some (.jarr _) => "[array]".data
  | none => "undefined".data

/-- Prepend a character to the first piece of a split result. -/
def consHead (c : Char) : List Str → List Str
  | [] => [[c]]
  | l :: ls => (c :: l) :: ls

/-- JavaScript `s.split(sep)` for a one-character separator (the
`split('\n')` of `fetchSiteItems` and `fetchIdeas`): each occurrence of
`sep` ends a piece; `''.split(sep)` is `['']`. -/
def splitChar (sep : Char) : Str → List Str
  | [] => [[]]
  | c :: rest =>
    if c = sep then [] :: splitChar sep rest
    else consHead c (splitChar sep rest)

/-- JavaScript `s.split(sep)` for a two-character separator (the
`split('\n\n')` of the chat and idea-detail read loops); matches are
found left to right and do not overlap. -/
def splitTwo (c₁ c₂ : Char) : Str → List Str
  | [] => [[]]
  | [c] => [[c]]
  | a :: b :: rest =>
    if a = c₁ ∧ b = c₂ then [] :: splitTwo c₁ c₂ rest
    else
      match splitTwo c₁ c₂ (b :: rest) with
      | [] => [[a]]
      | l :: ls => (a :: l) :: ls

/-- Joining of split results: how the pieces of `split (a ++ b)` arise
from the pieces of `split a` and `split b` (the last piece of `a` fuses
with the first piece of `b`). -/
def glue (xs ys : List Str) : List Str :=
  xs.dropLast ++ (xs.getLastD [] ++ ys.headD []) :: ys.tail

/-- The frame marker `'data: '` every read loop tests with `startsWith`
and strips with `slice(6)`. -/
def dataMarker : Str := "data: ".data

/-- JavaScript `line.startsWith('data: ')`. -/
def startsWithData (line : Str) : Bool := dataMarker.isPrefixOf line

/-- JavaScript `line.slice(6)`: the payload text of a frame. -/
def payloadOf (line : Str) : Str := line.drop 6

section Decoders

variable (parse : Str → Option Json)

/-! ## Item-list decoder: `fetchSiteItems` (SiteInfo.tsx 62–134) and
`fetchIdeas` (Ideator.tsx 60–135) — the two functions are textually
identical decoding logic, embedded once. -/

/-- The state the item-list read loop folds into: the `cards` (resp.
`ideas`) list, the `loading` flag, and counters for the two logging
calls (`console.warn('Incomplete JSON…')` in the loop,
`console.error('Error parsing final SSE data…')` in the trailing-fragment
handler). -/
structure SiteState : Type where
  cards : List Json
  loading : Bool
  warns : Nat
  finalErrs : Nat

/-- State at the start of `fetchSiteItems`: `setLoading(true)`,
`setCards([])` (SiteInfo.tsx 68–70). -/
def siteInit : SiteState := ⟨[], true, 0, 0⟩

/-- The `setCards` updater (SiteInfo.tsx 97–102 / Ideator.tsx 95–100):
append `data` unless some existing card's `title` is `===`-equal to
`data.title`. -/
def appendCard (cards : List Json) (data : Json) : List Json :=
  if cards.any (fun card => jsEq (jlookup card "title") (jlookup data "title")) then cards
  else cards ++ [data]

/-- One iteration of the `for (const line of lines)` body of
`fetchSiteItems` (SiteInfo.tsx 90–107): skip lines without the
`'data: '` marker; on parse failure log and continue; a `stop`-typed
payload clears `loading`; anything else is appended through the
deduplicating updater. -/
def siteHandleLine (s : SiteState) (line : Str) : SiteState :=
  if startsWithData line then
    match parse (payloadOf line) with
    | none => { s with warns := s.warns + 1 }
    | some data =>
      if jsEq (jlookup data "type") (some (.jstr "stop")) then { s with loading := false }
      else { s with cards := appendCard s.cards data }
  else s

/-- One iteration of the `while (true)` read loop of `fetchSiteItems`
(SiteInfo.tsx 82–109): prepend the buffered fragment to the chunk, split
on `'\n'`, pop the last element back into the buffer (`partialData`),
process the complete lines. -/
def siteStep (st : SiteState × Str) (chunk : Str) : SiteState × Str :=
  let lines := splitChar '\n' (st.2 ++ chunk)
  (lines.dropLast.foldl (siteHandleLine parse) st.1, lines.getLastD [])

/-- The trailing-fragment handler of `fetchSiteItems` (SiteInfo.tsx
111–128): if a non-empty fragment remains after `done`, slice off six
characters (with no `startsWith` check) and make one parse attempt;
append on success unless `stop`-typed, log on failure; in every case the
fragment is dropped and `setLoading(false)` (line 128) runs. -/
def siteFinish (s : SiteState) (frag : Str) : SiteState :=
  if frag ≠ [] then
    match parse (frag.drop 6) with
    | none => { s with finalErrs := s.finalErrs + 1, loading := false }
    | some data =>
      if jsEq (jlookup data "type") (some (.jstr "stop")) then { s with loading := false }
      else { s with cards := appendCard s.cards data, loading := false }
  else { s with loading := false }

/-- The whole stream consumption of `fetchSiteItems` (SiteInfo.tsx
77–128): fold the chunks through the buffered read loop, then run the
trailing-fragment handler on what is left in `partialData`.
`fetchIdeas` (Ideator.tsx 75–126) is the same code. -/
def fetchSiteItems (chunks : List Str) : SiteState :=
  let st := chunks.foldl (siteStep parse) (siteInit, [])
  siteFinish parse st.1 st.2

/-! ## Chat decoder: `handleSubmit` (ChatBot, App.tsx 595–667). -/

/-- One chat message (the `Message` interface, App.tsx 495–500).
`sources` and `visualization` hold raw payload fields. -/
structure ChatMessage : Type where
  text : Str
  isUser : Bool
  sources : Option Json
  visualization : Option Json

/-- The state `handleSubmit`'s read loop touches: the mutable local
`botMessage`, the `messages` list, the `suggestedQuestions` list (held
as the raw payload field), and a counter for the
`console.error('Error parsing SSE data…')` calls of the per-line catch. -/
structure ChatState : Type where
  bot : ChatMessage
  messages : List ChatMessage
  suggested : Option Json
  errs : Nat
  isLoading : Bool

/-- The `setMessages` updater (App.tsx 648–655): if the last message is
the user's, append a copy of `botMessage`, otherwise replace the last
message with it.  On an empty list the JavaScript would fault reading
`undefined.isUser`; `handleSubmit` appends the user's message before the
loop (line 601), so the list is never empty there, and the empty case is
mapped to the identity. -/
def updateMessages (msgs : List ChatMessage) (bot : ChatMessage) : List ChatMessage :=
  match msgs.getLast? with
  | some lastMessage =>
    if lastMessage.isUser then msgs ++ [bot] else msgs.dropLast ++ [bot]
  | none => msgs

/-- One iteration of the `for (const line of lines)` body of the chat
read loop (App.tsx 632–660): lines without the `'data: '` marker are
skipped; a parse failure is logged and skipped; otherwise the
`data.type` chain updates `botMessage` (or the suggested questions), a
`stop` only logs, and `setMessages` then runs for every parsed payload. -/
def chatHandleLine (parse : Str → Option Json) (s : ChatState) (line : Str) : ChatState :=
  if startsWithData line then
    match parse (payloadOf line) with
    | none => { s with errs := s.errs + 1 }
    | some data =>
      let ty := jlookup data "type"
      let bot :=
        if jsEq ty (some (.jstr "metadata")) then
          { s.bot with sources := jlookup data "sources" }
        else if jsEq ty (some (.jstr "content")) then
          { s.bot with text := s.bot.text ++ jsToStr (jlookup data "content") }
        else if jsEq ty (some (.jstr "visualization")) then
          { s.bot with visualization := jlookup data "content" }
        else s.bot
      let suggested :=
        if jsEq ty (some (.jstr "suggested_questions")) then jlookup data "content"
        else s.suggested
      { s with
        bot := bot
        suggested := suggested
        messages := updateMessages s.messages bot }
  else s

/-- One iteration of the chat `while (true)` read loop (App.tsx
626–661): each chunk is split on `'\n\n'` on its own — no fragment is
carried from one chunk to the next — and every piece is fed to the line
handler. -/
def chatStep (parse : Str → Option Json) (s : ChatState) (chunk : Str) : ChatState :=
  (splitTwo '\n' '\n' chunk).foldl (chatHandleLine parse) s

/-- The state of `handleSubmit` when the read loop starts: the user's
message appended (line 601), `isLoading` `true` (line 603), suggested
questions cleared (line 606), and a fresh empty `botMessage`
(line 624). -/
def chatStart (prior : List ChatMessage) (question : Str) : ChatState :=
  { bot := ⟨[], false, none, none⟩
    messages := prior ++ [⟨question, true, none, none⟩]
    suggested := some (.jarr [])
    errs := 0
    isLoading := true }

/-- The whole of `handleSubmit`'s stream consumption (App.tsx 626–666):
fold the chunks through the read loop; when `done` arrives nothing else
is parsed, and the `finally` clause clears `isLoading` (line 665). -/
def handleSubmit (parse : Str → Option Json) (prior : List ChatMessage) (question : Str)
    (chunks : List Str) : ChatState :=
  let s := chunks.foldl (chatStep parse) (chatStart prior question)
  { s with isLoading := false }

/-! ## Idea-detail decoder: `fetchDetails` (IdeaDetails, App.tsx
1214–1306; the simpler variant at 1024–1052 has the same try/catch
shape around the same `switch`). -/

/-- The state `fetchDetails` folds into: the two text buffers, the
customer-reviews payload (whole-list replace), the three loading flags,
the `error` UI state only the *outer* catch sets (line 1304), a counter
for the per-line catch's `console.error` (line 1296), and one for the
`default:` branch's `console.warn` (line 1293). -/
structure DetailState : Type where
  pressRelease : Str
  socialMedia : Str
  customerReviews : Option Json
  loadingPressRelease : Bool
  loadingSocialMedia : Bool
  loadingReviews : Bool
  uiError : Option Str
  parseErrs : Nat
  unknownWarns : Nat

/-- Initial state of the IdeaDetails component (App.tsx 1179–1185). -/
def detailInit : DetailState :=
  { pressRelease := []
    socialMedia := []
    customerReviews := none
    loadingPressRelease := true
    loadingSocialMedia := true
    loadingReviews := true
    uiError := none
    parseErrs := 0
    unknownWarns := 0 }

/-- One iteration of the `for (const line of lines)` body of
`fetchDetails` (App.tsx 1253–1298).  The `switch` on `data.type`
compares with strict equality.  Crucially, `case 'error': throw new
Error(data.error)` (line 1288) throws *inside* the `try` whose `catch`
(line 1295) is the per-line parse-failure handler, so the throw is
caught right there, logged like a parse failure, and the loop continues:
`setError` is never reached from it. -/
def detailHandleLine (parse : Str → Option Json) (s : DetailState) (line : Str) : DetailState :=
  if startsWithData line then
    match parse (payloadOf line) with
    | none => { s with parseErrs := s.parseErrs + 1 }
    | some data =>
      let ty := jlookup data "type"
      if jsEq ty (some (.jstr "press_release_start")) then
        { s with loadingPressRelease := true }
      else if jsEq ty (some (.jstr "press_release")) then
        { s with pressRelease := s.pressRelease ++ jsToStr (jlookup data "content") }
      else if jsEq ty (some (.jstr "press_release_end")) then
        { s with loadingPressRelease := false }
      else if jsEq ty (some (.jstr "social_media_start")) then
        { s with loadingSocialMedia := true }
      else if jsEq ty (some (.jstr "social_media")) then
        { s with socialMedia := s.socialMedia ++ jsToStr (jlookup data "content") }
      else if jsEq ty (some (.jstr "social_media_end")) then
        { s with loadingSocialMedia := false }
      else if jsEq ty (some (.jstr "customer_reviews_start")) then
        { s with loadingReviews := true }
      else if jsEq ty (some (.jstr "customer_reviews")) then
        { s with customerReviews := jlookup data "content" }
      else if jsEq ty (some (.jstr "customer_reviews_end")) then
        { s with loadingReviews := false }
      else if jsEq ty (some (.jstr "error")) then
        { s with parseErrs := s.parseErrs + 1 }
      else if jsEq ty (some (.jstr "stop")) then s
      else { s with unknownWarns := s.unknownWarns + 1 }
  else s

/-- One iteration of the `while (true)` read loop of `fetchDetails`
(App.tsx 1246–1300): like the chat loop, each chunk is split on
`'\n\n'` independently, with no cross-chunk fragment buffer. -/
def detailStep (parse : Str → Option Json) (s : DetailState) (chunk : Str) : DetailState :=
  (splitTwo '\n' '\n' chunk).foldl (detailHandleLine parse) s

/-- The whole stream consumption of `fetchDetails`: fold the chunks;
nothing further happens when `done` arrives. -/
def fetchDetails (parse : Str → Option Json) (chunks : List Str) : DetailState :=
  chunks.foldl (detailStep parse) detailInit

end Decoders

/-! ## A concrete parse oracle for closed evaluations. -/

/-- The parsed form of `{"type":"content","content":"Hello"}`. -/
def objHello : Json := .jobj [("type", .jstr "content"), ("content", .jstr "Hello")]

/-- The parsed form of `{"type":"content","content":" world"}`. -/
def objWorld : Json := .jobj [("type", .jstr "content"), ("content", .jstr " world")]

/-- The parsed form of `{"type":"stop"}`. -/
def objStop : Json := .jobj [("type", .jstr "stop")]

/-- The parsed form of `{"type":"content","content":"Hi"}`. -/
def objHi : Json := .jobj [("type", .jstr "content"), ("content", .jstr "Hi")]

/-- The parsed form of the catalog item `{"title":"A","description":"x","icon":"i"}`. -/
def objItemA : Json := .jobj [("title", .jstr "A"), ("description", .jstr "x"), ("icon", .jstr "i")]

/-- The parsed form of the catalog item `{"title":"B","description":"y","icon":"i"}`. -/
def objItemB : Json := .jobj [("title", .jstr "B"), ("description", .jstr "y"), ("icon", .jstr "i")]

/-- The parsed form of `{"type":"error","error":"boom"}`. -/
def objError : Json := .jobj [("type", .jstr "error"), ("error", .jstr "boom")]

/-- The parsed form of `{"type":"press_release","content":"X"}`. -/
def objPressX : Json := .jobj [("type", .jstr "press_release"), ("content", .jstr "X")]

/-- The parsed form of `{"description":"only"}` (no `type`, no `title`). -/
def objNoTitle : Json := .jobj [("description", .jstr "only")]

/-- A concrete instance of the `JSON.parse` oracle: defined on exactly
the payload texts of the scenarios below, every other text being
rejected (in particular every proper prefix of these payloads, which is
invalid JSON, as `JSON.parse` rejects it). -/
def demoParse (p : Str) : Option Json :=
  if p = "\x7b\"type\":\"content\",\"content\":\"Hello\"\x7d".data then some objHello
  else if p = "\x7b\"type\":\"content\",\"content\":\" world\"\x7d".data then some objWorld
  else if p = "\x7b\"type\":\"stop\"\x7d".data then some objStop
  else if p = "\x7b\"type\":\"content\",\"content\":\"Hi\"\x7d".data then some objHi
  else if p = "\x7b\"title\":\"A\",\"description\":\"x\",\"icon\":\"i\"\x7d".data then some objItemA
  else if p = "\x7b\"title\":\"B\",\"description\":\"y\",\"icon\":\"i\"\x7d".data then some objItemB
  else if p = "\x7b\"type\":\"error\",\"error\":\"boom\"\x7d".data then some objError
  else if p = "\x7b\"type\":\"press_release\",\"content\":\"X\"\x7d".data then some objPressX
  else if p = "\x7b\"description\":\"only\"\x7d".data then some objNoTitle
  else none

/-! ## Request lifecycle of one SiteInfo owner (SiteInfo.tsx 44, 62–66,
139–164): the `fetchedRef` guard and what happens to events of a stream
whose request has been superseded.  The `while` loop suspends at each
`await reader.read()`, so two overlapping invocations of
`fetchSiteItems` interleave at chunk granularity and both mutate the
same component state through `setCards`. -/

/-- One step of the owner's lifecycle.
`save` is `handleSave`/`handleItemLimitChange` (SiteInfo.tsx 147, 153,
162): `fetchedRef.current = false` (the state change that lets the
effect start a new request).
`startFetch` is the entry of `fetchSiteItems` (SiteInfo.tsx 64–70):
return if `fetchedRef.current` is set, otherwise set it, `setLoading(true)`,
`setCards([])`.
`deliverLine origin line` is one complete line arriving on an open
response stream that was started by request number `origin` and being
processed by the loop body (SiteInfo.tsx 90–107). -/
inductive OwnerAction : Type where
  | save
  | startFetch
  | deliverLine (origin : Nat) (line : Str)

/-- The state owned by one SiteInfo component, plus `fetched`
(`fetchedRef.current`) and the ghost counter `started` of requests
started so far — the "monotonically-incrementing current request token"
of the specification, recorded here only to *name* streams: no code in
`fetchSiteItems` reads any such token. -/
structure OwnerState : Type where
  site : SiteState
  fetched : Bool
  started : Nat

/-- Before any prompt is saved: no cards, not loading, nothing fetched. -/
def ownerInit : OwnerState := ⟨⟨[], false, 0, 0⟩, false, 0⟩

/-- The owner's transition function.  The `deliverLine` case is the loop
body of SiteInfo.tsx 90–107 verbatim: it folds the line into the shared
state unconditionally — the code contains no comparison of the stream's
`origin` with any current-request token. -/
def ownerStep (parse : Str → Option Json) (st : OwnerState) : OwnerAction → OwnerState
  | .save => { st with fetched := false }
  | .startFetch =>
    if st.fetched then st
    else { site := { cards := [], loading := true,
                     warns := st.site.warns, finalErrs := st.site.finalErrs },
           fetched := true, started := st.started + 1 }
  | .deliverLine _ line => { st with site := siteHandleLine parse st.site line }

/-- A whole interleaved history of one owner. -/
def ownerRun (parse : Str → Option Json) (acts : List OwnerAction) : OwnerState :=
  acts.foldl (ownerStep parse) ownerInit

/-- Relabel the stream membership of delivered events (which request
each open stream belongs to). -/
def retagAction (f : Nat → Nat) : OwnerAction → OwnerAction
  | .deliverLine origin line => .deliverLine (f origin) line
  | a => a

/-! ## Splitting lemmas -/

theorem splitChar_ne_nil (sep : Char) (t : Str) : splitChar sep t ≠ [] := by
  induction t with
  | nil => simp [splitChar]
  | cons c rest ih =>
    simp only [splitChar]
    split
    · simp
    · cases h : splitChar sep rest with
      | nil => simp [consHead]
      | cons l ls => simp [consHead]

theorem getLastD_cons_of_ne_nil {xs : List Str} (x d : Str) (h : xs ≠ []) :
    (x :: xs).getLastD d = xs.getLastD d := by
  cases xs with
  | nil => exact absurd rfl h
  | cons y ys => rfl

theorem glue_cons {xs : List Str} (x : Str) (ys : List Str) (h : xs ≠ []) :
    glue (x :: xs) ys = x :: glue xs ys := by
  unfold glue
  rw [List.dropLast_cons_of_ne_nil h, getLastD_cons_of_ne_nil x [] h]
  simp

theorem glue_single (x : Str) (ys : List Str) :
    glue [x] ys = (x ++ ys.headD []) :: ys.tail := by
  simp [glue]

theorem consHead_glue (c : Char) {xs : List Str} (ys : List Str) (h : xs ≠ []) :
    consHead c (glue xs ys) = glue (consHead c xs) ys := by
  cases xs with
  | nil => exact absurd rfl h
  | cons l ls =>
    cases ls with
    | nil => simp [glue_single, consHead]
    | cons l₂ ls₂ =>
      simp only [consHead]
      rw [glue_cons l ys (by simp), glue_cons (c :: l) ys (by simp)]

theorem headD_cons_tail {ys : List Str} (h : ys ≠ []) : ys.headD [] :: ys.tail = ys := by
  cases ys with
  | nil => exact absurd rfl h
  | cons y t => rfl

theorem splitChar_append (sep : Char) (a b : Str) :
    splitChar sep (a ++ b) = glue (splitChar sep a) (splitChar sep b) := by
  induction a with
  | nil =>
    simp only [List.nil_append, splitChar, glue, List.dropLast_nil, List.getLastD_nil,
      List.nil_append]
    exact (headD_cons_tail (splitChar_ne_nil sep b)).symm
  | cons c a ih =>
    simp only [List.cons_append, splitChar, List.append_eq]
    split
    · rw [ih, glue_cons [] _ (splitChar_ne_nil sep a)]
    · rw [ih, consHead_glue c _ (splitChar_ne_nil sep a)]

theorem not_mem_of_mem_splitChar {sep : Char} {t l : Str}
    (hl : l ∈ splitChar sep t) : sep ∉ l := by
  induction t generalizing l with
  | nil =>
    simp [splitChar] at hl
    simp [hl]
  | cons c rest ih =>
    simp only [splitChar] at hl
    by_cases hc : c = sep
    · simp [hc] at hl
      rcases hl with h | h
      · simp [h]
      · exact ih h
    · simp [hc] at hl
      cases hsp : splitChar sep rest with
      | nil => exact absurd hsp (splitChar_ne_nil sep rest)
      | cons m ms =>
        rw [hsp] at hl
        simp [consHead] at hl
        rcases hl with h | h
        · subst h
          intro hmem
          rcases List.mem_cons.mp hmem with h | h
          · exact hc h.symm
          · exact ih (hsp ▸ List.mem_cons_self m ms) h
        · exact ih (hsp ▸ List.mem_cons_of_mem m h)

theorem splitChar_of_not_mem {sep : Char} {t : Str} (h : sep ∉ t) :
    splitChar sep t = [t] := by
  induction t with
  | nil => rfl
  | cons c rest ih =>
    have hc : ¬ c = sep := fun hc => h (hc ▸ List.mem_cons_self c rest)
    have hrest : sep ∉ rest := fun hm => h (List.mem_cons_of_mem c hm)
    simp only [splitChar, if_neg hc, ih hrest, consHead]

theorem dropLast_append_cons {α : Type} (A : List α) (x : α) (t : List α) :
    (A ++ x :: t).dropLast = A ++ (x :: t).dropLast := by
  induction A with
  | nil => rfl
  | cons a A ih =>
    rw [List.cons_append, List.dropLast_cons_of_ne_nil (by simp), ih, List.cons_append]

theorem getLastD_irrel {α : Type} (x : α) (t : List α) (a d : α) :
    (x :: t).getLastD a = (x :: t).getLastD d := by
  rw [List.getLastD_cons, List.getLastD_cons]

theorem getLastD_append_cons {α : Type} (A : List α) (x : α) (t : List α) (d : α) :
    (A ++ x :: t).getLastD d = (x :: t).getLastD d := by
  induction A generalizing d with
  | nil => rfl
  | cons a A ih =>
    rw [List.cons_append, List.getLastD_cons, ih a]
    exact getLastD_irrel x t a d

theorem not_mem_splitChar_getLastD (sep : Char) (t : Str) :
    sep ∉ (splitChar sep t).getLastD [] := by
  cases hs : splitChar sep t with
  | nil => exact absurd hs (splitChar_ne_nil sep t)
  | cons x xs =>
    have hmem : (x :: xs).getLastD [] ∈ splitChar sep t := by
      rw [hs, List.getLastD_cons]
      exact List.getLastD_mem_cons xs x
    exact not_mem_of_mem_splitChar hmem

/-- The buffered read loop in closed form: folding any chunk sequence
through `siteStep`, starting from a separator-free buffered fragment
`p`, is the same as splitting the whole text `p ++ chunks.flatten` once,
folding the line handler over every piece but the last, and leaving the
last piece in the buffer. -/
theorem siteStep_foldl (parse : Str → Option Json) (chunks : List Str)
    (s : SiteState) (p : Str) (hp : '\n' ∉ p) :
    chunks.foldl (siteStep parse) (s, p) =
      ((splitChar '\n' (p ++ chunks.flatten)).dropLast.foldl (siteHandleLine parse) s,
       (splitChar '\n' (p ++ chunks.flatten)).getLastD []) := by
  induction chunks generalizing s p with
  | nil =>
    simp [splitChar_of_not_mem hp]
  | cons c cs ih =>
    rw [List.foldl_cons]
    have hstep : siteStep parse (s, p) c =
        ((splitChar '\n' (p ++ c)).dropLast.foldl (siteHandleLine parse) s,
         (splitChar '\n' (p ++ c)).getLastD []) := rfl
    rw [hstep]
    set L := splitChar '\n' (p ++ c) with hL
    set M := splitChar '\n' cs.flatten with hM
    have hlast : '\n' ∉ L.getLastD [] := not_mem_splitChar_getLastD '\n' (p ++ c)
    rw [ih _ _ hlast]
    have hsplit : splitChar '\n' (p ++ (c :: cs).flatten) = glue L M := by
      rw [List.flatten_cons, ← List.append_assoc, splitChar_append, ← hL, ← hM]
    have hsplitLast : splitChar '\n' (L.getLastD [] ++ cs.flatten) =
        (L.getLastD [] ++ M.headD []) :: M.tail := by
      rw [splitChar_append, splitChar_of_not_mem hlast, ← hM, glue_single]
    rw [hsplit, hsplitLast]
    unfold glue
    rw [Prod.mk.injEq]
    constructor
    · rw [dropLast_append_cons, List.foldl_append]
    · rw [getLastD_append_cons]

/-- `fetchSiteItems` in closed form: the whole decode is a single split
of the full received text, a fold of the line handler over all
separator-terminated lines, and the one trailing-fragment attempt on
the final piece. -/
theorem fetchSiteItems_eq_spec (parse : Str → Option Json) (chunks : List Str) :
    fetchSiteItems parse chunks =
      siteFinish parse
        ((splitChar '\n' chunks.flatten).dropLast.foldl (siteHandleLine parse) siteInit)
        ((splitChar '\n' chunks.flatten).getLastD []) := by
  unfold fetchSiteItems
  rw [siteStep_foldl parse chunks siteInit [] (by simp)]
  simp

/-! ## Logging counters commute with the fold -/

theorem siteHandleLine_warns_bump (parse : Str → Option Json) (s : SiteState) (l : Str) :
    siteHandleLine parse { s with warns := s.warns + 1 } l =
      { siteHandleLine parse s l with warns := (siteHandleLine parse s l).warns + 1 } := by
  unfold siteHandleLine
  by_cases hsw : startsWithData l
  · simp only [hsw, if_true]
    cases parse (payloadOf l) with
    | none => rfl
    | some data =>
      by_cases hstop : jsEq (jlookup data "type") (some (.jstr "stop")) = true
      · simp [hstop]
      · simp [hstop]
  · simp [hsw]

theorem foldl_siteHandleLine_warns (parse : Str → Option Json) (L : List Str) (s : SiteState) :
    L.foldl (siteHandleLine parse) { s with warns := s.warns + 1 } =
      { L.foldl (siteHandleLine parse) s with
        warns := (L.foldl (siteHandleLine parse) s).warns + 1 } := by
  induction L generalizing s with
  | nil => rfl
  | cons l L ih =>
    rw [List.foldl_cons, List.foldl_cons, siteHandleLine_warns_bump, ih]

theorem chatHandleLine_errs_bump (parse : Str → Option Json) (s : ChatState) (l : Str) :
    chatHandleLine parse { s with errs := s.errs + 1 } l =
      { chatHandleLine parse s l with errs := (chatHandleLine parse s l).errs + 1 } := by
  unfold chatHandleLine
  by_cases hsw : startsWithData l
  · simp only [hsw, if_true]
    cases parse (payloadOf l) with
    | none => rfl
    | some data => rfl
  · simp [hsw]

theorem foldl_chatHandleLine_errs (parse : Str → Option Json) (L : List Str) (s : ChatState) :
    L.foldl (chatHandleLine parse) { s with errs := s.errs + 1 } =
      { L.foldl (chatHandleLine parse) s with
        errs := (L.foldl (chatHandleLine parse) s).errs + 1 } := by
  induction L generalizing s with
  | nil => rfl
  | cons l L ih =>
    rw [List.foldl_cons, List.foldl_cons, chatHandleLine_errs_bump, ih]

/-! ## Claims -/

/-- C1 counterexample: the single well-formed frame
`data: {"type":"content","content":"Hi"}\n\n` delivered as two chunks,
split in the middle of the JSON payload, makes the chat read loop of
`handleSubmit` lose the content event (it parses the first half at once,
logs one parse failure, and ignores the prefix-less second half), while
the same bytes in one chunk produce the event — the chat decoder is not
chunk-boundary invariant. -/
theorem c1_chat_split_loses_frame :
    (["data: \x7b\"type\":\"content\",\"content\":\"Hi".data,
      "\"\x7d\n\n".data] : List Str).flatten =
        "data: \x7b\"type\":\"content\",\"content\":\"Hi\"\x7d\n\n".data ∧
    (handleSubmit demoParse [] "Q".data
        ["data: \x7b\"type\":\"content\",\"content\":\"Hi".data,
         "\"\x7d\n\n".data]).bot.text = [] ∧
    (handleSubmit demoParse [] "Q".data
        ["data: \x7b\"type\":\"content\",\"content\":\"Hi\"\x7d\n\n".data]).bot.text = "Hi".data ∧
    (handleSubmit demoParse [] "Q".data
        ["data: \x7b\"type\":\"content\",\"content\":\"Hi".data,
         "\"\x7d\n\n".data]).errs = 1 := by
  exact ⟨by decide, by decide, by decide, by decide⟩

/-- C1 (amended): the item-list decoders (`fetchSiteItems` of SiteInfo
and the identical `fetchIdeas` of Ideator), which carry the unterminated
last piece of each chunk in `partialData`, are chunk-boundary invariant:
any splitting of the received bytes into chunks decodes exactly as the
whole byte sequence delivered as one chunk.  (The chat and idea-detail
loops, which keep no cross-chunk buffer, are not: see the
counterexample.) -/
theorem c1_item_decoder_chunk_invariance (parse : Str → Option Json) (chunks : List Str) :
    fetchSiteItems parse chunks = fetchSiteItems parse [chunks.flatten] := by
  rw [fetchSiteItems_eq_spec, fetchSiteItems_eq_spec]
  simp

/-- C2: in `fetchDetails`, a well-formed `error`-typed event is *not*
propagated as a terminal user-visible failure: the
`throw new Error(data.error)` of the `switch` is caught by the enclosing
per-line catch (the parse-failure handler), so it is logged exactly like
a frame-parse failure, the UI error state stays unset, and decoding
continues — the subsequent `press_release` frame is still applied. -/
theorem c2_error_event_swallowed :
    (fetchDetails demoParse
      ["data: \x7b\"type\":\"error\",\"error\":\"boom\"\x7d\n\ndata: \x7b\"type\":\"press_release\",\"content\":\"X\"\x7d\n\n".data]).uiError = none ∧
    (fetchDetails demoParse
      ["data: \x7b\"type\":\"error\",\"error\":\"boom\"\x7d\n\ndata: \x7b\"type\":\"press_release\",\"content\":\"X\"\x7d\n\n".data]).parseErrs = 1 ∧
    (fetchDetails demoParse
      ["data: \x7b\"type\":\"error\",\"error\":\"boom\"\x7d\n\ndata: \x7b\"type\":\"press_release\",\"content\":\"X\"\x7d\n\n".data]).pressRelease = "X".data := by
  exact ⟨rfl, by decide, by decide⟩

/-- C7: the chat scenario — the three frames
`data: {"type":"content","content":"Hello"}\n\n`,
`data: {"type":"content","content":" world"}\n\n`,
`data: {"type":"stop"}\n\n`, each delivered whole, folded from a fresh
chat answer — ends with answer text `"Hello world"` and the completion
flag set (`isLoading` cleared by the `finally`); the content fragments
appended in arrival order, and the `stop` frame changed no text buffer
(the text already equals `"Hello world"` before it and the final bot
message is unchanged by it). -/
theorem c7_chat_scenario :
    (handleSubmit demoParse [] "Q".data
        ["data: \x7b\"type\":\"content\",\"content\":\"Hello\"\x7d\n\n".data,
         "data: \x7b\"type\":\"content\",\"content\":\" world\"\x7d\n\n".data,
         "data: \x7b\"type\":\"stop\"\x7d\n\n".data]).bot.text = "Hello world".data ∧
    (handleSubmit demoParse [] "Q".data
        ["data: \x7b\"type\":\"content\",\"content\":\"Hello\"\x7d\n\n".data,
         "data: \x7b\"type\":\"content\",\"content\":\" world\"\x7d\n\n".data]).bot.text = "Hello world".data ∧
    (handleSubmit demoParse [] "Q".data
        ["data: \x7b\"type\":\"content\",\"content\":\"Hello\"\x7d\n\n".data,
         "data: \x7b\"type\":\"content\",\"content\":\" world\"\x7d\n\n".data,
         "data: \x7b\"type\":\"stop\"\x7d\n\n".data]).messages.map (fun m => m.text) =
      ["Q".data, "Hello world".data] ∧
    (handleSubmit demoParse [] "Q".data
        ["data: \x7b\"type\":\"content\",\"content\":\"Hello\"\x7d\n\n".data,
         "data: \x7b\"type\":\"content\",\"content\":\" world\"\x7d\n\n".data,
         "data: \x7b\"type\":\"stop\"\x7d\n\n".data]).messages.map (fun m => m.isUser) =
      [true, false] ∧
    (handleSubmit demoParse [] "Q".data
        ["data: \x7b\"type\":\"content\",\"content\":\"Hello\"\x7d\n\n".data,
         "data: \x7b\"type\":\"content\",\"content\":\" world\"\x7d\n\n".data,
         "data: \x7b\"type\":\"stop\"\x7d\n\n".data]).isLoading = false := by
  exact ⟨by decide, by decide, by decide, by decide, by decide⟩

/-- C3: the item accumulation is idempotent on the title key: (i) an
append event whose title already occurs in the list (under the code's
own `===` comparison) leaves the list unchanged; (ii) applying the same
append event twice (its title comparing equal to itself, as every
string-titled item does) yields the same list as applying it once;
(iii) the catalog scenario with two frames titled "A" ends with exactly
one entry titled "A". -/
theorem c3_append_idempotent :
    (∀ (cards : List Json) (data : Json),
        (∃ c ∈ cards, jsEq (jlookup c "title") (jlookup data "title") = true) →
        appendCard cards data = cards) ∧
    (∀ (cards : List Json) (data : Json),
        jsEq (jlookup data "title") (jlookup data "title") = true →
        appendCard (appendCard cards data) data = appendCard cards data) ∧
    (fetchSiteItems demoParse
        ["data: \x7b\"title\":\"A\",\"description\":\"x\",\"icon\":\"i\"\x7d\n".data,
         "data: \x7b\"title\":\"A\",\"description\":\"x\",\"icon\":\"i\"\x7d\n".data,
         "data: \x7b\"type\":\"stop\"\x7d\n".data]).cards = [objItemA] := by
  have hdup : ∀ (cards : List Json) (data : Json),
      (∃ c ∈ cards, jsEq (jlookup c "title") (jlookup data "title") = true) →
      appendCard cards data = cards := by
    intro cards data hex
    unfold appendCard
    rw [if_pos (List.any_eq_true.mpr hex)]
  refine ⟨hdup, ?_, rfl⟩
  intro cards data hrefl
  by_cases h : cards.any (fun card => jsEq (jlookup card "title") (jlookup data "title")) = true
  · rw [hdup cards data (List.any_eq_true.mp h)]
    exact hdup cards data (List.any_eq_true.mp h)
  · have h1 : appendCard cards data = cards ++ [data] := by
      unfold appendCard
      rw [if_neg h]
    rw [h1]
    exact hdup (cards ++ [data]) data ⟨data, by simp, hrefl⟩

/-- C3 witness: the idempotence at concrete inputs — the item titled "A"
is not appended a second time, and a double append equals a single one. -/
theorem c3_append_idempotent_witness :
    appendCard [objItemA] objItemA = [objItemA] ∧
    appendCard (appendCard [] objItemA) objItemA = appendCard [] objItemA := by
  constructor
  · exact c3_append_idempotent.1 [objItemA] objItemA ⟨objItemA, by simp, by decide⟩
  · exact c3_append_idempotent.2.1 [] objItemA (by decide)

/-- C4: one malformed frame is isolated: in both the item-list fold and
the chat fold, decoding a line list containing one prefixed line whose
payload fails to parse yields exactly the state of decoding the same
list without that line, with the malformed-frame log counter one
higher — the failure is recorded exactly once, nothing is raised, and
every other frame (before or after) contributes exactly as it would
have. -/
theorem c4_malformed_frame_isolated (parse : Str → Option Json) (bad : Str)
    (hpre : startsWithData bad = true) (hbad : parse (payloadOf bad) = none) :
    (∀ (s : SiteState) (pre post : List Str),
        (pre ++ bad :: post).foldl (siteHandleLine parse) s =
          { (pre ++ post).foldl (siteHandleLine parse) s with
            warns := ((pre ++ post).foldl (siteHandleLine parse) s).warns + 1 }) ∧
    (∀ (s : ChatState) (pre post : List Str),
        (pre ++ bad :: post).foldl (chatHandleLine parse) s =
          { (pre ++ post).foldl (chatHandleLine parse) s with
            errs := ((pre ++ post).foldl (chatHandleLine parse) s).errs + 1 }) := by
  constructor
  · intro s pre post
    have hbadstep : ∀ t : SiteState, siteHandleLine parse t bad = { t with warns := t.warns + 1 } := by
      intro t
      unfold siteHandleLine
      simp [hpre, hbad]
    rw [List.foldl_append, List.foldl_cons, hbadstep, foldl_siteHandleLine_warns,
      ← List.foldl_append]
  · intro s pre post
    have hbadstep : ∀ t : ChatState, chatHandleLine parse t bad = { t with errs := t.errs + 1 } := by
      intro t
      unfold chatHandleLine
      simp [hpre, hbad]
    rw [List.foldl_append, List.foldl_cons, hbadstep, foldl_chatHandleLine_errs,
      ← List.foldl_append]

/-- C4 witness: a concrete malformed frame `data: {oops` among good
frames bumps the warn counter once and leaves the rest of the decode
exactly as without it. -/
theorem c4_malformed_frame_isolated_witness :
    startsWithData "data: \x7boops".data = true ∧
    demoParse (payloadOf "data: \x7boops".data) = none ∧
    ([] ++ "data: \x7boops".data ::
        ["data: \x7b\"title\":\"A\",\"description\":\"x\",\"icon\":\"i\"\x7d".data]).foldl
        (siteHandleLine demoParse) siteInit =
      { ([] ++ ["data: \x7b\"title\":\"A\",\"description\":\"x\",\"icon\":\"i\"\x7d".data]).foldl
          (siteHandleLine demoParse) siteInit with
        warns := (([] ++ ["data: \x7b\"title\":\"A\",\"description\":\"x\",\"icon\":\"i\"\x7d".data]).foldl
          (siteHandleLine demoParse) siteInit).warns + 1 } := by
  refine ⟨by decide, rfl, ?_⟩
  exact (c4_malformed_frame_isolated demoParse "data: \x7boops".data (by decide) rfl).1
    siteInit [] ["data: \x7b\"title\":\"A\",\"description\":\"x\",\"icon\":\"i\"\x7d".data]

/-- C5 counterexample: the frame `data: {"type":"stop"}` with no trailing
separator, split across two chunks, refutes uniformity: the chat loop of
`handleSubmit` retains no fragment — it parses the first half as soon as
its chunk arrives (logging a parse failure) and never makes an
end-of-stream attempt — while the item-list decoder on the same bytes
buffers the fragment, makes the one final attempt, and handles the
`stop` (no warn, loading cleared). -/
theorem c5_chat_has_no_final_attempt :
    (["data: \x7b\"ty".data, "pe\":\"stop\"\x7d".data] : List Str).flatten =
        "data: \x7b\"type\":\"stop\"\x7d".data ∧
    demoParse "\x7b\"type\":\"stop\"\x7d".data = some objStop ∧
    (handleSubmit demoParse [] "Q".data
        ["data: \x7b\"ty".data, "pe\":\"stop\"\x7d".data]).errs = 1 ∧
    (fetchSiteItems demoParse ["data: \x7b\"ty".data, "pe\":\"stop\"\x7d".data]).warns = 0 ∧
    (fetchSiteItems demoParse ["data: \x7b\"ty".data, "pe\":\"stop\"\x7d".data]).loading = false := by
  exact ⟨by decide, rfl, by decide, by decide, by decide⟩

/-- C5 (amended): the item-list decoders (`fetchSiteItems`, and the
identical `fetchIdeas`) implement best-effort-then-discard at stream
end: the whole decode equals the fold over all separator-terminated
lines followed by exactly one application of the trailing-fragment
handler to the text after the last separator; that handler, on a
non-empty fragment, makes one parse attempt — logging on failure,
appending the item on non-`stop` success — and in either case the
fragment is gone from the resulting state (which carries no buffer).
The chat and idea-detail loops have no fragment buffer at all and make
no end-of-stream attempt. -/
theorem c5_item_final_fragment_best_effort (parse : Str → Option Json) (chunks : List Str) :
    fetchSiteItems parse chunks =
      siteFinish parse
        ((splitChar '\n' chunks.flatten).dropLast.foldl (siteHandleLine parse) siteInit)
        ((splitChar '\n' chunks.flatten).getLastD []) ∧
    (∀ (s : SiteState) (frag : Str), frag ≠ [] → parse (frag.drop 6) = none →
        siteFinish parse s frag = { s with finalErrs := s.finalErrs + 1, loading := false }) ∧
    (∀ (s : SiteState) (frag : Str) (data : Json), frag ≠ [] →
        parse (frag.drop 6) = some data →
        jsEq (jlookup data "type") (some (.jstr "stop")) = false →
        siteFinish parse s frag = { s with cards := appendCard s.cards data, loading := false }) := by
  refine ⟨fetchSiteItems_eq_spec parse chunks, ?_, ?_⟩
  · intro s frag hne hparse
    unfold siteFinish
    simp [hne, hparse]
  · intro s frag data hne hparse hstop
    unfold siteFinish
    simp [hne, hparse, hstop]

/-- C5 witness: the trailing-fragment handler at concrete inputs — an
unparsable fragment is logged and dropped, a parsable non-`stop`
fragment yields its item. -/
theorem c5_item_final_fragment_best_effort_witness :
    ("data: x".data ≠ ([] : Str)) ∧
    demoParse ("data: x".data.drop 6) = none ∧
    siteFinish demoParse siteInit "data: x".data =
      { siteInit with finalErrs := siteInit.finalErrs + 1, loading := false } ∧
    siteFinish demoParse siteInit
        "data: \x7b\"title\":\"A\",\"description\":\"x\",\"icon\":\"i\"\x7d".data =
      { siteInit with cards := appendCard siteInit.cards objItemA, loading := false } := by
  refine ⟨by decide, rfl, ?_, ?_⟩
  · exact (c5_item_final_fragment_best_effort demoParse []).2.1 siteInit
      "data: x".data (by decide) rfl
  · exact (c5_item_final_fragment_best_effort demoParse []).2.2 siteInit
      "data: \x7b\"title\":\"A\",\"description\":\"x\",\"icon\":\"i\"\x7d".data objItemA
      (by decide) rfl (by decide)

/-- C6: a complete frame that does not start with `data: ` produces no
event and is simply skipped, in all three line handlers (item-list,
chat, idea-detail); removing such a line from an item-list decode
changes nothing — decoding continues with the following frames
untouched. -/
theorem c6_unmarked_frame_ignored (parse : Str → Option Json) (line : Str)
    (h : startsWithData line = false) :
    (∀ s : SiteState, siteHandleLine parse s line = s) ∧
    (∀ s : ChatState, chatHandleLine parse s line = s) ∧
    (∀ s : DetailState, detailHandleLine parse s line = s) ∧
    (∀ (s : SiteState) (pre post : List Str),
        (pre ++ line :: post).foldl (siteHandleLine parse) s =
          (pre ++ post).foldl (siteHandleLine parse) s) := by
  have hsite : ∀ s : SiteState, siteHandleLine parse s line = s := by
    intro s
    unfold siteHandleLine
    simp [h]
  refine ⟨hsite, ?_, ?_, ?_⟩
  · intro s
    unfold chatHandleLine
    simp [h]
  · intro s
    unfold detailHandleLine
    simp [h]
  · intro s pre post
    rw [List.foldl_append, List.foldl_cons, hsite, ← List.foldl_append]

/-- C6 witness: the concrete unmarked line `event: ping` is a no-op for
every handler and inside a decode. -/
theorem c6_unmarked_frame_ignored_witness :
    startsWithData "event: ping".data = false ∧
    siteHandleLine demoParse siteInit "event: ping".data = siteInit ∧
    detailHandleLine demoParse detailInit "event: ping".data = detailInit ∧
    (["data: \x7b\"title\":\"A\",\"description\":\"x\",\"icon\":\"i\"\x7d".data] ++
        "event: ping".data ::
        ["data: \x7b\"type\":\"stop\"\x7d".data]).foldl (siteHandleLine demoParse) siteInit =
      (["data: \x7b\"title\":\"A\",\"description\":\"x\",\"icon\":\"i\"\x7d".data] ++
        ["data: \x7b\"type\":\"stop\"\x7d".data]).foldl (siteHandleLine demoParse) siteInit := by
  refine ⟨by decide, ?_, ?_, ?_⟩
  · exact (c6_unmarked_frame_ignored demoParse "event: ping".data (by decide)).1 siteInit
  · exact (c6_unmarked_frame_ignored demoParse "event: ping".data (by decide)).2.2.1 detailInit
  · exact (c6_unmarked_frame_ignored demoParse "event: ping".data (by decide)).2.2.2 siteInit
      ["data: \x7b\"title\":\"A\",\"description\":\"x\",\"icon\":\"i\"\x7d".data]
      ["data: \x7b\"type\":\"stop\"\x7d".data]

/-- C8 counterexample: after a second request has started (the ghost
request counter — the token the specification posits — has advanced to
2), a line delivered by the still-open stream of request 1 is folded
into the owner's state all the same: `fetchedRef` is consulted only
before a fetch starts, and the per-line fold applies events with no
request check whatsoever. -/
theorem c8_stale_stream_still_folds :
    (ownerRun demoParse
        [.save, .startFetch, .save, .startFetch]).started = 2 ∧
    (ownerRun demoParse
        [.save, .startFetch, .save, .startFetch]).site.cards = [] ∧
    (ownerRun demoParse
        [.save, .startFetch, .save, .startFetch,
         .deliverLine 1 "data: \x7b\"title\":\"B\",\"description\":\"y\",\"icon\":\"i\"\x7d".data]).site.cards =
      [objItemB] := by
  exact ⟨by decide, rfl, rfl⟩

/-- C8 (amended): the code has no cancellation token checked before fold
applications.  The fold is completely insensitive to which request an
event's stream belongs to — relabelling stream origins arbitrarily
leaves every run unchanged — and the only guard, `fetchedRef`, acts
solely at fetch start: when it is set, `fetchSiteItems` returns without
touching anything. -/
theorem c8_no_token_checked_per_event (parse : Str → Option Json) :
    (∀ (acts : List OwnerAction) (f : Nat → Nat),
        ownerRun parse (acts.map (retagAction f)) = ownerRun parse acts) ∧
    (∀ st : OwnerState, st.fetched = true → ownerStep parse st .startFetch = st) := by
  constructor
  · intro acts f
    unfold ownerRun
    rw [List.foldl_map]
    have hstep : (fun (st : OwnerState) a => ownerStep parse st (retagAction f a)) =
        ownerStep parse := by
      funext st a
      cases a <;> rfl
    rw [hstep]
  · intro st h
    unfold ownerStep
    simp [h]

/-- C8 witness: relabelling the origin of a delivered line does not
change the run, and a `startFetch` with `fetchedRef` already set is a
no-op, at concrete inputs. -/
theorem c8_no_token_checked_per_event_witness :
    ownerRun demoParse
        (([OwnerAction.deliverLine 0 "data: \x7b\"type\":\"stop\"\x7d".data]).map
          (retagAction (fun _ => 7))) =
      ownerRun demoParse [OwnerAction.deliverLine 0 "data: \x7b\"type\":\"stop\"\x7d".data] ∧
    (⟨⟨[], true, 0, 0⟩, true, 1⟩ : OwnerState).fetched = true ∧
    ownerStep demoParse ⟨⟨[], true, 0, 0⟩, true, 1⟩ .startFetch =
      ⟨⟨[], true, 0, 0⟩, true, 1⟩ := by
  refine ⟨?_, by decide, ?_⟩
  · exact (c8_no_token_checked_per_event demoParse).1
      [OwnerAction.deliverLine 0 "data: \x7b\"type\":\"stop\"\x7d".data] (fun _ => 7)
  · exact (c8_no_token_checked_per_event demoParse).2 ⟨⟨[], true, 0, 0⟩, true, 1⟩ rfl

/-- C9: every line the chat fold processes changes the message list in
at most one of two ways, both touching only the position after the
existing messages or the last message itself: if the trailing message is
the user's, one bot message is appended after it; if the trailing
message is the bot's, it alone is replaced; otherwise (unmarked or
unparsable line) the list is untouched.  No earlier message is ever
modified. -/
theorem c9_chat_fold_frame_effect (parse : Str → Option Json) (s : ChatState) (line : Str)
    (lastMsg : ChatMessage) (h : s.messages.getLast? = some lastMsg) :
    (chatHandleLine parse s line).messages = s.messages ∨
    (lastMsg.isUser = true ∧
      ∃ b, (chatHandleLine parse s line).messages = s.messages ++ [b]) ∨
    (lastMsg.isUser = false ∧
      ∃ b, (chatHandleLine parse s line).messages = s.messages.dropLast ++ [b]) := by
  unfold chatHandleLine
  by_cases hsw : startsWithData line = true
  · rw [if_pos hsw]
    cases hp : parse (payloadOf line) with
    | none => left; rfl
    | some data =>
      simp only [updateMessages, h]
      by_cases hu : lastMsg.isUser = true
      · rw [if_pos hu]
        right; left
        exact ⟨hu, _, rfl⟩
      · rw [if_neg hu]
        right; right
        exact ⟨by simpa using hu, _, rfl⟩
  · left
    rw [if_neg hsw]

/-- C9 witness: at the start of a response the trailing message is the
user's, so a content frame appends one bot message (or one of the other
two listed effects). -/
theorem c9_chat_fold_frame_effect_witness :
    (chatStart [] "Q".data).messages.getLast? = some ⟨"Q".data, true, none, none⟩ ∧
    ((chatHandleLine demoParse (chatStart [] "Q".data)
          "data: \x7b\"type\":\"content\",\"content\":\"Hello\"\x7d".data).messages =
        (chatStart [] "Q".data).messages ∨
      ((⟨"Q".data, true, none, none⟩ : ChatMessage).isUser = true ∧
        ∃ b, (chatHandleLine demoParse (chatStart [] "Q".data)
            "data: \x7b\"type\":\"content\",\"content\":\"Hello\"\x7d".data).messages =
          (chatStart [] "Q".data).messages ++ [b]) ∨
      ((⟨"Q".data, true, none, none⟩ : ChatMessage).isUser = false ∧
        ∃ b, (chatHandleLine demoParse (chatStart [] "Q".data)
            "data: \x7b\"type\":\"content\",\"content\":\"Hello\"\x7d".data).messages =
          (chatStart [] "Q".data).messages.dropLast ++ [b])) := by
  refine ⟨rfl, ?_⟩
  exact c9_chat_fold_frame_effect demoParse (chatStart [] "Q".data)
    "data: \x7b\"type\":\"content\",\"content\":\"Hello\"\x7d".data
    ⟨"Q".data, true, none, none⟩ rfl

/-- C10: in the item-list fold, every successfully parsed payload of a
marked line whose `type` is not `===` the string `stop` — including
payloads with no `type` field, or missing title, description or icon —
is handed to the appending updater, subject only to its title-duplicate
check; no other shape validation exists in the code path. -/
theorem c10_item_classification (parse : Str → Option Json) (s : SiteState) (line : Str)
    (data : Json) (hpre : startsWithData line = true)
    (hparse : parse (payloadOf line) = some data)
    (hstop : jsEq (jlookup data "type") (some (.jstr "stop")) = false) :
    siteHandleLine parse s line = { s with cards := appendCard s.cards data } := by
  unfold siteHandleLine
  simp [hpre, hparse, hstop]

/-- C10 witness: the payload `{"description":"only"}`, which has neither
`type` nor `title` nor `icon`, is appended as an item. -/
theorem c10_item_classification_witness :
    startsWithData "data: \x7b\"description\":\"only\"\x7d".data = true ∧
    demoParse (payloadOf "data: \x7b\"description\":\"only\"\x7d".data) = some objNoTitle ∧
    jsEq (jlookup objNoTitle "type") (some (.jstr "stop")) = false ∧
    siteHandleLine demoParse siteInit "data: \x7b\"description\":\"only\"\x7d".data =
      { siteInit with cards := appendCard siteInit.cards objNoTitle } := by
  refine ⟨by decide, rfl, by decide, ?_⟩
  exact c10_item_classification demoParse siteInit
    "data: \x7b\"description\":\"only\"\x7d".data objNoTitle (by decide) rfl (by decide)
